import Mathlib

/-!
Verification of the `canvasoauthenticator` package (file
`canvasoauthenticator/__init__.py`), a Canvas OAuth2 authenticator for
JupyterHub.  The Python code is shallowly embedded below: JSON values are the
inductive `Json`, Python dicts are association lists (`List (String × Json)`,
first binding wins, as dict keys are unique), and fallible code (Python
exceptions) returns `Except String` / `Option`.  Python string primitives used
by the code (`lower`, `upper`, `endswith`, `split`, `strip`, `in`, `join`) are
modelled character-exactly on `String.data`; `lower`/`upper` use the per-char
case maps, which agree with Python on the ASCII data handled here.
-/

/-- JSON values, the payloads of the Canvas API. -/
inductive Json where
  | null : Json
  | bool : Bool → Json
  | num : Int → Json
  | str : String → Json
  | arr : List Json → Json
  | obj : List (String × Json) → Json
deriving Repr

mutual

/-- Decidable equality for `Json` (the derive handler does not support the
nested occurrences of `List`). -/
def Json.decEq : (a b : Json) → Decidable (a = b)
  | Json.null, Json.null => isTrue rfl
  | Json.bool a, Json.bool b =>
    if h : a = b then isTrue (by rw [h]) else isFalse (fun hh => h (Json.bool.inj hh))
  | Json.num a, Json.num b =>
    if h : a = b then isTrue (by rw [h]) else isFalse (fun hh => h (Json.num.inj hh))
  | Json.str a, Json.str b =>
    if h : a = b then isTrue (by rw [h]) else isFalse (fun hh => h (Json.str.inj hh))
  | Json.arr xs, Json.arr ys =>
    match Json.decEqList xs ys with
    | isTrue h => isTrue (by rw [h])
    | isFalse h => isFalse (fun hh => h (Json.arr.inj hh))
  | Json.obj fs, Json.obj gs =>
    match Json.decEqFields fs gs with
    | isTrue h => isTrue (by rw [h])
    | isFalse h => isFalse (fun hh => h (Json.obj.inj hh))
  | Json.null, Json.bool _ | Json.null, Json.num _ | Json.null, Json.str _
  | Json.null, Json.arr _ | Json.null, Json.obj _
  | Json.bool _, Json.null | Json.bool _, Json.num _ | Json.bool _, Json.str _
  | Json.bool _, Json.arr _ | Json.bool _, Json.obj _
  | Json.num _, Json.null | Json.num _, Json.bool _ | Json.num _, Json.str _
  | Json.num _, Json.arr _ | Json.num _, Json.obj _
  | Json.str _, Json.null | Json.str _, Json.bool _ | Json.str _, Json.num _
  | Json.str _, Json.arr _ | Json.str _, Json.obj _
  | Json.arr _, Json.null | Json.arr _, Json.bool _ | Json.arr _, Json.num _
  | Json.arr _, Json.str _ | Json.arr _, Json.obj _
  | Json.obj _, Json.null | Json.obj _, Json.bool _ | Json.obj _, Json.num _
  | Json.obj _, Json.str _ | Json.obj _, Json.arr _ =>
    isFalse (fun h => Json.noConfusion h)

def Json.decEqList : (xs ys : List Json) → Decidable (xs = ys)
  | [], [] => isTrue rfl
  | [], _ :: _ => isFalse (fun h => List.noConfusion h)
  | _ :: _, [] => isFalse (fun h => List.noConfusion h)
  | x :: xs, y :: ys =>
    match Json.decEq x y with
    | isFalse h => isFalse (fun hh => h (List.cons.inj hh).1)
    | isTrue h1 =>
      match Json.decEqList xs ys with
      | isTrue h2 => isTrue (by rw [h1, h2])
      | isFalse h => isFalse (fun hh => h (List.cons.inj hh).2)

def Json.decEqFields : (fs gs : List (String × Json)) → Decidable (fs = gs)
  | [], [] => isTrue rfl
  | [], _ :: _ => isFalse (fun h => List.noConfusion h)
  | _ :: _, [] => isFalse (fun h => List.noConfusion h)
  | (k1, v1) :: fs, (k2, v2) :: gs =>
    if hk : k1 = k2 then
      match Json.decEq v1 v2 with
      | isFalse h =>
        isFalse (fun hh => h (congrArg Prod.snd (List.cons.inj hh).1))
      | isTrue h1 =>
        match Json.decEqFields fs gs with
        | isTrue h2 => isTrue (by rw [hk, h1, h2])
        | isFalse h => isFalse (fun hh => h (List.cons.inj hh).2)
    else isFalse (fun hh => hk (congrArg Prod.fst (List.cons.inj hh).1))

end

instance : DecidableEq Json := Json.decEq

/-- Python `d.get(k)` / `k in d` on a dict with unique keys: the first binding
for `k`, if any. -/
def getField (d : List (String × Json)) (k : String) : Option Json :=
  (d.find? (fun p => p.1 == k)).map (fun p => p.2)

/-- Python `str()` on the values the code passes to `format_jupyterhub_group`
(strings, numbers, booleans and `None`; the call sites never pass
containers, whose Python rendering is irrelevant here). -/
def pyStr : Json → String
  | Json.null => "None"
  | Json.bool true => "True"
  | Json.bool false => "False"
  | Json.num n => toString n
  | Json.str s => s
  | Json.arr _ => "[...]"
  | Json.obj _ => "\x7b...\x7d"

/-- `format_jupyterhub_group(*terms)`: `"::".join(map(str, terms))`. -/
def format_jupyterhub_group (terms : List Json) : String :=
  String.intercalate "::" (terms.map pyStr)

/-- Python `s.lower()` (per-character case map; exact on ASCII). -/
def pyLower (s : String) : String := String.mk (s.data.map Char.toLower)

/-- Python `s.upper()` (per-character case map; exact on ASCII). -/
def pyUpper (s : String) : String := String.mk (s.data.map Char.toUpper)

/-- Python `s.endswith(suffix)`. -/
def pyEndsWith (s suffix : String) : Bool :=
  List.isSuffixOf suffix.data s.data

/-- Substring search: does `needle` occur (contiguously) in `hay`? -/
def pyInList (needle : List Char) : List Char → Bool
  | [] => needle.isEmpty
  | c :: cs => List.isPrefixOf needle (c :: cs) || pyInList needle cs

/-- Python `needle in hay` on strings (substring containment). -/
def pyIn (needle hay : String) : Bool :=
  pyInList needle.data hay.data

/-- Python `s.split(sep)` for a one-character separator, on char lists:
splits at every occurrence, keeping empty fields (`"".split` gives one
empty field). -/
def pySplitList (sep : Char) : List Char → List (List Char)
  | [] => [[]]
  | c :: cs =>
    if c = sep then [] :: pySplitList sep cs
    else
      match pySplitList sep cs with
      | [] => [[c]]
      | r :: rest => (c :: r) :: rest

/-- Python `s.split(sep)` for a one-character separator. -/
def pySplit (sep : Char) (s : String) : List String :=
  (pySplitList sep s.data).map String.mk

/-- Python `s.strip(chars)`: drop characters of `chars` from both ends. -/
def pyStrip (s chars : String) : String :=
  String.mk
    (((s.data.dropWhile (fun c => chars.data.contains c)).reverse.dropWhile
        (fun c => chars.data.contains c)).reverse)

/-- Python truthiness of a JSON value (`if resp_data:` and friends). -/
def pyTruthy : Json → Bool
  | Json.null => false
  | Json.bool b => b
  | Json.num n => n != 0
  | Json.str s => s != ""
  | Json.arr xs => !xs.isEmpty
  | Json.obj fs => !fs.isEmpty

/-- `set.add` observed through insertion order: add `x` unless present. -/
def dedupInsert {α : Type} [DecidableEq α] (xs : List α) (x : α) : List α :=
  if x ∈ xs then xs else xs ++ [x]

/-- Python `set(iterable)` read back as a list.  CPython iterates a set in an
implementation-defined order; the model fixes first-insertion order, which is
adequate because every property below treats such results as sets. -/
def pySet {α : Type} [DecidableEq α] : List α → List α → List α
  | [], acc => acc
  | x :: xs, acc => pySet xs (dedupInsert acc x)

/-- Error-propagating `map` over a list (the success path of a Python loop
whose body may raise). -/
def mapME {α β : Type} (f : α → Except String β) : List α → Except String (List β)
  | [] => Except.ok []
  | x :: xs => do
    let y ← f x
    let ys ← mapME f xs
    Except.ok (y :: ys)

/-! ## Group derivation from courses (`groups_from_canvas_courses`) -/

/-- `course.get(self.canvas_course_key, None)` followed by the
`if course_id is None: continue` test: `none` when the key is absent or its
value is JSON null (Python cannot tell the two apart here). -/
def getCourseId (canvas_course_key : String) (course : List (String × Json)) : Option Json :=
  match getField course canvas_course_key with
  | some Json.null => none
  | some v => some v
  | none => none

/-- `x.get("type", None)` on one enrollment entry; a non-dict entry would
raise `AttributeError` in the source. -/
def enrollmentTypeOf : Json → Except String Json
  | Json.obj fields => Except.ok ((getField fields "type").getD Json.null)
  | _ => Except.error "AttributeError: get"

/-- `course.get("enrollments", [])`, which must be iterable downstream: a
present non-list value would raise `TypeError` in the source. -/
def getEnrollments (course : List (String × Json)) : Except String (List Json) :=
  match getField course "enrollments" with
  | none => Except.ok []
  | some (Json.arr xs) => Except.ok xs
  | some _ => Except.error "TypeError: not iterable"

/-- `set(map(lambda x: x.get("type", None), course.get("enrollments", [])))`. -/
def distinctEnrollmentTypes (course : List (String × Json)) : Except String (List Json) := do
  let xs ← getEnrollments course
  let ts ← mapME enrollmentTypeOf xs
  Except.ok (pySet ts [])

/-- The loop body of `groups_from_canvas_courses` for one course: skip when
the configured key yields no id, else `course::{id}` followed by one
`course::{id}::enrollment_type::{t}` per distinct enrollment-type value. -/
def course_groups_one (canvas_course_key : String) (course : List (String × Json)) :
    Except String (List String) :=
  match getCourseId canvas_course_key course with
  | none => Except.ok []
  | some course_id => do
    let ts ← distinctEnrollmentTypes course
    Except.ok
      (format_jupyterhub_group [Json.str "course", course_id] ::
        ts.map (fun t =>
          format_jupyterhub_group
            [Json.str "course", course_id, Json.str "enrollment_type", t]))

/-- `groups_from_canvas_courses(self, courses)`: the appends of the source
loop, i.e. the in-order concatenation of the per-course contributions. -/
def groups_from_canvas_courses (canvas_course_key : String)
    (courses : List (List (String × Json))) : Except String (List String) := do
  let per ← mapME (course_groups_one canvas_course_key) courses
  Except.ok per.flatten

/-! ## Group derivation from group memberships (`groups_from_canvas_groups`) -/

/-- The loop body of `groups_from_canvas_groups` for one group record:
`ok none` when the record has no `name` key (the `continue`), an error when
`group.get("context_type")` is not a string (`None.lower()` raises
`AttributeError`), else the identifier
`{context_type}::{context_id}::group::{name}` where the context id is read
from the `{context_type}_id` field with default `0`. -/
def groupEntry (group : List (String × Json)) : Except String (Option String) :=
  match getField group "name" with
  | none => Except.ok none
  | some name =>
    match getField group "context_type" with
    | some (Json.str ct) =>
      let context_type := pyLower ct
      let context_id := (getField group (context_type ++ "_id")).getD (Json.num 0)
      Except.ok (some (format_jupyterhub_group
        [Json.str context_type, context_id, Json.str "group", name]))
    | _ => Except.error "AttributeError: lower"

/-- The accumulating-set loop of `groups_from_canvas_groups`. -/
def gfcgAux : List (List (String × Json)) → List String → Except String (List String)
  | [], acc => Except.ok acc
  | g :: rest, acc =>
    match groupEntry g with
    | Except.error e => Except.error e
    | Except.ok none => gfcgAux rest acc
    | Except.ok (some s) => gfcgAux rest (dedupInsert acc s)

/-- `groups_from_canvas_groups(self, self_groups)`: `list(...)` of the
accumulated set (set semantics; the model fixes insertion order). -/
def groups_from_canvas_groups (self_groups : List (List (String × Json))) :
    Except String (List String) :=
  gfcgAux self_groups []

/-- The group assembly of `token_to_user` (lines 202–206): the final group
list is the course-derived identifiers followed by the membership-derived
identifiers. -/
def token_to_user_groups (canvas_course_key : String)
    (courses self_groups : List (List (String × Json))) : Except String (List String) := do
  let course_group_names ← groups_from_canvas_courses canvas_course_key courses
  let self_group_names ← groups_from_canvas_groups self_groups
  Except.ok (course_group_names ++ self_group_names)

/-! ## Auth-state assembly (`build_auth_state_dict`) and spawn environment -/

/-- The class attribute `user_auth_state_key = "canvas_user"` (line 20). -/
def user_auth_state_key : String := "canvas_user"

/-- The scope branch of `build_auth_state_dict`: a string scope is split on
single spaces, any other value passes through unchanged. -/
def scopeNormalize : Json → Json
  | Json.str s => Json.arr ((pySplit ' ' s).map Json.str)
  | v => v

/-- `build_auth_state_dict(self, token_info, user_info)`: `none` models the
`KeyError` raised by `token_info["access_token"]` when that key is absent. -/
def build_auth_state_dict (token_info user_info : List (String × Json)) :
    Option (List (String × Json)) :=
  match getField token_info "access_token" with
  | none => none
  | some access_token =>
    let refresh_token := (getField token_info "refresh_token").getD Json.null
    let id_token := (getField token_info "id_token").getD Json.null
    let scope := scopeNormalize ((getField token_info "scope").getD (Json.str ""))
    some
      [("access_token", access_token),
       ("refresh_token", refresh_token),
       ("id_token", id_token),
       ("scope", scope),
       ("token_response", Json.obj token_info),
       (user_auth_state_key, (getField user_info "user").getD (Json.obj [])),
       ("courses", (getField user_info "courses").getD (Json.arr [])),
       ("groups", (getField user_info "groups").getD (Json.arr []))]

/-- The identity fields `pre_spawn_start` forwards to the spawner. -/
def spawn_env_fields : List String := ["login_id", "name", "sortable_name", "primary_email"]

/-- The environment updates prescribed by the body of `pre_spawn_start`:
`OAUTH2_ACCESS_TOKEN` when the auth state has an `access_token` key, and
`OAUTH2_{k.upper()}` for each identity field present in
`auth_state["oauth_user"]` when the auth state has an `oauth_user` key
(`none` models the `TypeError` a non-dict `oauth_user` value would raise). -/
def pre_spawn_env (auth_state : List (String × Json)) :
    Option (List (String × Json)) :=
  let env : List (String × Json) := []
  let env := match getField auth_state "access_token" with
    | some tok => env ++ [("OAUTH2_ACCESS_TOKEN", tok)]
    | none => env
  match getField auth_state "oauth_user" with
  | none => some env
  | some (Json.obj oauth_user) =>
    some (env ++ spawn_env_fields.filterMap (fun k =>
      (getField oauth_user k).map (fun v => ("OAUTH2_" ++ pyUpper k, v))))
  | some _ => none

/-! ## Constructor validation (`__init__`) and the userdata-url check -/

/-- The URLs `__init__` derives from `canvas_url` after validating it. -/
structure CanvasConfig where
  token_url : String
  userdata_url : String
  groups_url : String
  courses_url : String
deriving Repr, DecidableEq

/-- `__init__`: raise when `canvas_url` is unset (empty, Python falsy) or
does not end in a slash; otherwise derive the four endpoint URLs. -/
def canvas_init (canvas_url : String) : Except String CanvasConfig :=
  if canvas_url = "" then
    Except.error "c.CanvasOAuthenticator.canvas_url must be set"
  else if canvas_url.data.getLast? ≠ some '/' then
    Except.error "c.CanvasOAuthenticator.canvas_url must have a trailing slash"
  else
    Except.ok
      { token_url := canvas_url ++ "login/oauth2/token"
        userdata_url := canvas_url ++ "api/v1/users/self/profile"
        groups_url := canvas_url ++ "api/v1/users/self/groups"
        courses_url := canvas_url ++ "api/v1/courses" }

/-- The configuration check `token_to_user` performs per authentication
attempt (lines 185–188): raise when `self.userdata_url` is falsy. -/
def token_to_user_userdata_check (userdata_url : String) : Except String Unit :=
  if userdata_url = "" then
    Except.error "authenticator.userdata_url is missing. Please configure it."
  else Except.ok ()

/-! ## Username normalization (`normalize_username`) -/

/-- `normalize_username(self, username)`: lower-case, then, when a strip
domain is configured and the name ends with `@` plus that domain, return
`username.split("@")[0]`. -/
def normalize_username (strip_email_domain username : String) : String :=
  let username := pyLower username
  if strip_email_domain ≠ "" ∧ pyEndsWith username ("@" ++ strip_email_domain) then
    (pySplit '@' username).headD ""
  else username

/-! ## Paginated fetching (`fetch_all_pages`) -/

/-- The body-processing step of the fetch loop: a JSON list extends the
accumulator, any other truthy value is appended, falsy values contribute
nothing. -/
def process_page_body (all_data : List Json) (resp_data : Json) : List Json :=
  match resp_data with
  | Json.arr xs => all_data ++ xs
  | b => if pyTruthy b then all_data ++ [b] else all_data

/-- The records one page contributes (spec-side restatement of
`process_page_body`, used to state concatenation results). -/
def pageRecords : Json → List Json
  | Json.arr xs => xs
  | b => if pyTruthy b then [b] else []

/-- The `Link`-header scan of the fetch loop: split on commas, take the
first part containing `rel="next"`, and return its first `;`-field stripped
of spaces and angle brackets. -/
def parse_next_url (link_header : String) : Option String :=
  match (pySplit ',' link_header).find? (fun part => pyIn "rel=\"next\"" part) with
  | some part => some (pyStrip ((pySplit ';' part).headD "") " <>")
  | none => none

/-- Python truthiness of the loop variable `url` (`while url:`): `None` and
the empty string are falsy. -/
def urlTruthy : Option String → Bool
  | none => false
  | some s => s != ""

/-- One authenticated page fetch, modelled as a deterministic server mapping
a URL to the parsed JSON body and the `Link` response header (the source
fetches each URL twice, once for the body and once for the headers; a
deterministic upstream makes that one lookup).  `none` models an HTTP
failure raised by `httpfetch`. -/
def fetch_all_pages_from (server : String → Option (Json × String)) :
    Nat → Option String → List Json → Option (List Json)
  | 0, url, all_data =>
    match url with
    | none => some all_data
    | some u => if u = "" then some all_data else none
  | fuel + 1, url, all_data =>
    match url with
    | none => some all_data
    | some u =>
      if u = "" then some all_data
      else
        match server u with
        | none => none
        | some (body, link_header) =>
          fetch_all_pages_from server fuel (parse_next_url link_header)
            (process_page_body all_data body)

/-- `fetch_all_pages(self, url, ...)`: run the pagination loop from `url`
with an empty accumulator.  `fuel` bounds the number of iterations the proof
may unfold; the source enforces no such bound (`while url:`), so the model
returns `none` when `fuel` pages were followed without reaching a page that
lacks a next link. -/
def fetch_all_pages (server : String → Option (Json × String)) (fuel : Nat)
    (url : String) : Option (List Json) :=
  fetch_all_pages_from server fuel (some url) []

/-- How a pagination chain continues from the url computed out of the
previous page's `Link` header: an empty remaining chain means that url is
falsy (the loop stops), a non-empty one means it is exactly the next page's
URL. -/
def chainHead : List (String × Json × String) → Option String → Prop
  | [], url => urlTruthy url = false
  | (u, _, _) :: _, url => url = some u

/-- A finite pagination chain: each entry is a URL, the body served there and
the `Link` header served there; every page's URL is truthy and served by the
server, each page except the last links to the next page's URL, and the last
page's header yields no (truthy) next link. -/
def chainOk (server : String → Option (Json × String)) :
    List (String × Json × String) → Prop
  | [] => True
  | (u, body, link_header) :: rest =>
    u ≠ "" ∧ server u = some (body, link_header) ∧
    chainHead rest (parse_next_url link_header) ∧
    chainOk server rest

/-- Spec-side characterization of `username.split("@")[0]`: the part of `s`
before its first `@`. -/
def prefixBeforeAt (s : String) : String :=
  String.mk (s.data.takeWhile (fun c => c != '@'))

/-- A concrete three-page server: pages 1 and 2 declare a `rel="next"` link,
page 3 does not. -/
def pagedServer : String → Option (Json × String) := fun u =>
  if u = "https://x/p1" then
    some (Json.arr [Json.num 1], "<https://x/p2>; rel=\"next\"")
  else if u = "https://x/p2" then
    some (Json.arr [Json.num 2, Json.num 3], "<https://x/p3>; rel=\"next\"")
  else if u = "https://x/p3" then
    some (Json.obj [("a", Json.num 4)], "")
  else none

/-- A concrete one-page server whose single page has an empty-object body and
no next link. -/
def emptyObjServer : String → Option (Json × String) := fun u =>
  if u = "https://x/only" then some (Json.obj [], "") else none

/-! ## Helper lemmas -/

theorem dedupInsert_nodup {α : Type} [DecidableEq α] {xs : List α} (x : α)
    (h : xs.Nodup) : (dedupInsert xs x).Nodup := by
  unfold dedupInsert
  split
  · exact h
  · next hx => simp [List.nodup_append, h, hx]

theorem mem_dedupInsert {α : Type} [DecidableEq α] {xs : List α} {x y : α} :
    y ∈ dedupInsert xs x ↔ y ∈ xs ∨ y = x := by
  unfold dedupInsert
  split
  · next hx =>
    constructor
    · exact Or.inl
    · rintro (h | rfl)
      · exact h
      · exact hx
  · simp

theorem pySet_spec {α : Type} [DecidableEq α] :
    ∀ (xs acc : List α), (acc.Nodup → (pySet xs acc).Nodup) ∧
      (∀ y, y ∈ pySet xs acc ↔ y ∈ acc ∨ y ∈ xs)
  | [], acc => by simp [pySet]
  | x :: xs, acc => by
    have ih := pySet_spec xs (dedupInsert acc x)
    simp only [pySet]
    refine ⟨fun h => ih.1 (dedupInsert_nodup x h), fun y => ?_⟩
    rw [ih.2 y, mem_dedupInsert]
    simp only [List.mem_cons]
    tauto

theorem mapME_ok_mem {α β : Type} {f : α → Except String β} :
    ∀ {xs : List α} {ys : List β} {x : α} {y : β},
      mapME f xs = Except.ok ys → x ∈ xs → f x = Except.ok y → y ∈ ys := by
  intro xs
  induction xs with
  | nil => intro ys x y h hx _; simp at hx
  | cons a as ih =>
    intro ys x y h hx hf
    rcases hfa : f a with e | b
    · rw [mapME, hfa] at h
      simp [Bind.bind, Except.bind] at h
    · rw [mapME, hfa] at h
      rcases hrest : mapME f as with e | bs
      · rw [hrest] at h
        simp [Bind.bind, Except.bind] at h
      · rw [hrest] at h
        simp only [Bind.bind, Except.bind, Except.ok.injEq] at h
        subst h
        rcases List.mem_cons.mp hx with rfl | hx2
        · rw [hfa] at hf
          have : b = y := by injection hf
          exact this ▸ List.mem_cons_self b bs
        · exact List.mem_cons_of_mem b (ih hrest hx2 hf)

theorem pySplitList_ne_nil (sep : Char) : ∀ l : List Char, pySplitList sep l ≠ []
  | [] => by simp [pySplitList]
  | c :: cs => by
    rw [pySplitList]
    split
    · simp
    · rcases h : pySplitList sep cs with _ | ⟨r, rest⟩
      · exact absurd h (pySplitList_ne_nil sep cs)
      · simp [h]

theorem head?_pySplitList (sep : Char) :
    ∀ l : List Char,
      (pySplitList sep l).head? = some (l.takeWhile (fun c => c != sep))
  | [] => rfl
  | c :: cs => by
    rw [pySplitList]
    by_cases hc : c = sep
    · subst hc
      simp [List.takeWhile_cons]
    · rw [if_neg hc]
      rcases h : pySplitList sep cs with _ | ⟨r, rest⟩
      · exact absurd h (pySplitList_ne_nil sep cs)
      · have ih := head?_pySplitList sep cs
        rw [h] at ih
        simp only [List.head?_cons, Option.some.injEq] at ih
        simp [List.takeWhile_cons, hc, ih]

theorem pySplit_headD (sep : Char) (s : String) :
    (pySplit sep s).headD "" = String.mk (s.data.takeWhile (fun c => c != sep)) := by
  unfold pySplit
  rw [List.headD_eq_head?, List.head?_map, head?_pySplitList]
  rfl

theorem takeWhile_append_sep (sep : Char) :
    ∀ (l r : List Char), sep ∉ l →
      (l ++ sep :: r).takeWhile (fun c => c != sep) = l
  | [], r, _ => by simp [List.takeWhile_cons]
  | c :: l, r, h => by
    have hc : c ≠ sep := fun e => h (e ▸ List.mem_cons_self c l)
    have hl : sep ∉ l := fun e => h (List.mem_cons_of_mem c e)
    simp only [List.cons_append, List.takeWhile_cons]
    simp [hc, takeWhile_append_sep sep l r hl]

theorem isSuffixOf_append (a b : List Char) : List.isSuffixOf b (a ++ b) = true := by
  rw [List.isSuffixOf_iff_suffix]
  exact List.suffix_append a b

theorem gfcgAux_spec :
    ∀ (gs : List (List (String × Json))) (acc res : List String),
      gfcgAux gs acc = Except.ok res →
      (acc.Nodup → res.Nodup) ∧
      (∀ s, s ∈ res ↔ s ∈ acc ∨ ∃ g, g ∈ gs ∧ groupEntry g = Except.ok (some s))
  | [], acc, res => by
    intro h
    rw [gfcgAux] at h
    injection h with h
    subst h
    simp
  | g :: gs, acc, res => by
    intro h
    rw [gfcgAux] at h
    rcases hg : groupEntry g with e | o
    · rw [hg] at h
      exact absurd h (by simp)
    · rw [hg] at h
      rcases o with _ | s0
      · have ih := gfcgAux_spec gs acc res h
        refine ⟨ih.1, fun s => ?_⟩
        rw [ih.2 s]
        constructor
        · rintro (hs | ⟨g2, hg2, he⟩)
          · exact Or.inl hs
          · exact Or.inr ⟨g2, List.mem_cons_of_mem g hg2, he⟩
        · rintro (hs | ⟨g2, hg2, he⟩)
          · exact Or.inl hs
          · rcases List.mem_cons.mp hg2 with rfl | hg2
            · rw [hg] at he
              exact absurd he (by simp)
            · exact Or.inr ⟨g2, hg2, he⟩
      · have ih := gfcgAux_spec gs (dedupInsert acc s0) res h
        refine ⟨fun hn => ih.1 (dedupInsert_nodup s0 hn), fun s => ?_⟩
        rw [ih.2 s, mem_dedupInsert]
        constructor
        · rintro ((hs | rfl) | ⟨g2, hg2, he⟩)
          · exact Or.inl hs
          · exact Or.inr ⟨g, List.mem_cons_self g gs, hg⟩
          · exact Or.inr ⟨g2, List.mem_cons_of_mem g hg2, he⟩
        · rintro (hs | ⟨g2, hg2, he⟩)
          · exact Or.inl (Or.inl hs)
          · rcases List.mem_cons.mp hg2 with rfl | hg2
            · rw [hg] at he
              have : s0 = s := by
                injection he with he2
                injection he2
              exact Or.inl (Or.inr this.symm)
            · exact Or.inr ⟨g2, hg2, he⟩

/-! ## Claim theorems -/

/-- C1: the final group list of one authentication attempt is the
course-derived identifiers (`groups_from_canvas_courses`) followed by the
membership-derived identifiers (`groups_from_canvas_groups`); in particular,
for the concrete course 101 with a student enrollment and group g1, the final
list is `course::101`, `course::101::enrollment_type::student`,
`course::101::group::g1`. -/
theorem token_to_user_groups_spec :
    (∀ (key : String) (courses self_groups : List (List (String × Json)))
        (cg sg : List String),
        groups_from_canvas_courses key courses = Except.ok cg →
        groups_from_canvas_groups self_groups = Except.ok sg →
        token_to_user_groups key courses self_groups = Except.ok (cg ++ sg)) ∧
    token_to_user_groups "id"
        [[("id", Json.num 101),
          ("enrollments", Json.arr [Json.obj [("type", Json.str "student")]])]]
        [[("name", Json.str "g1"), ("context_type", Json.str "Course"),
          ("course_id", Json.num 101)]] =
      Except.ok ["course::101", "course::101::enrollment_type::student",
        "course::101::group::g1"] := by
  constructor
  · intro key courses gs cg sg h1 h2
    simp only [token_to_user_groups, h1, h2]
    rfl
  · rfl

/-- C1 witness: the concatenation theorem applied at a concrete input. -/
theorem token_to_user_groups_spec_witness :
    token_to_user_groups "id" [[("id", Json.num 7)]] [] =
      Except.ok (["course::7"] ++ ([] : List String)) :=
  token_to_user_groups_spec.1 "id" [[("id", Json.num 7)]] [] ["course::7"] [] rfl rfl

/-- C2 counterexample: the course `[("id", null)]` has the configured
identifier field (`getField` finds it), yet it contributes zero identifiers,
because `course.get("id", None)` returns `None` for a null value exactly as
for an absent key; the claim requires exactly one `course::{id}` identifier
for every course having the field. -/
theorem course_with_null_id_counterexample :
    getField [("id", Json.null)] "id" = some Json.null ∧
    groups_from_canvas_courses "id" [[("id", Json.null)]] = Except.ok [] :=
  ⟨rfl, rfl⟩

/-- C2 (amended): courses whose identifier lookup yields nothing — the field
is absent or holds null — contribute zero identifiers; a course with a
non-null identifier value contributes exactly one `course::{id}` identifier
followed by one `course::{id}::enrollment_type::{t}` identifier per distinct
enrollment-type lookup value, the per-course blocks concatenated in input
order, so the per-course output length is exactly (hence at most)
1 + the number of distinct enrollment types. -/
theorem groups_from_canvas_courses_spec (key : String)
    (courses : List (List (String × Json))) (res : List String)
    (h : groups_from_canvas_courses key courses = Except.ok res) :
    (∃ per, mapME (course_groups_one key) courses = Except.ok per ∧
      res = per.flatten) ∧
    (∀ course, getCourseId key course = none →
      course_groups_one key course = Except.ok []) ∧
    (∀ course course_id ts l, getCourseId key course = some course_id →
      distinctEnrollmentTypes course = Except.ok ts →
      course_groups_one key course = Except.ok l →
      ts.Nodup ∧
      l = format_jupyterhub_group [Json.str "course", course_id] ::
        ts.map (fun t => format_jupyterhub_group
          [Json.str "course", course_id, Json.str "enrollment_type", t]) ∧
      l.length = 1 + ts.length) := by
  refine ⟨?_, ?_, ?_⟩
  · rw [groups_from_canvas_courses] at h
    rcases hper : mapME (course_groups_one key) courses with e | per
    · rw [hper] at h
      exact absurd h (by simp [Bind.bind, Except.bind])
    · rw [hper] at h
      refine ⟨per, rfl, ?_⟩
      simp only [Bind.bind, Except.bind, Except.ok.injEq] at h
      exact h.symm
  · intro course h0
    rw [course_groups_one, h0]
  · intro course course_id ts l hid hts hok
    rw [course_groups_one, hid, hts] at hok
    simp only [Bind.bind, Except.bind, Except.ok.injEq] at hok
    have hnodup : ts.Nodup := by
      rw [distinctEnrollmentTypes] at hts
      rcases hes : getEnrollments course with e | es
      · rw [hes] at hts
        exact absurd hts (by simp [Bind.bind, Except.bind])
      · rw [hes] at hts
        simp only [Bind.bind, Except.bind] at hts
        rcases hls : mapME enrollmentTypeOf es with e | ls
        · rw [hls] at hts
          exact absurd hts (by simp)
        · rw [hls] at hts
          simp only [Except.ok.injEq] at hts
          rw [← hts]
          exact (pySet_spec ls []).1 List.nodup_nil
    refine ⟨hnodup, hok.symm, ?_⟩
    rw [← hok]
    simp only [List.length_cons, List.length_map]
    omega

/-- C2 witness: the amended per-course/concatenation theorem applied at a
concrete one-course input. -/
theorem groups_from_canvas_courses_spec_witness :
    ∃ per, mapME (course_groups_one "id") [[("id", Json.num 101)]] =
        Except.ok per ∧ ["course::101"] = per.flatten :=
  (groups_from_canvas_courses_spec "id" [[("id", Json.num 101)]]
    ["course::101"] rfl).1

/-- C3: on every input on which it returns, `groups_from_canvas_groups`
returns a duplicate-free list whose members are exactly the identifiers the
per-record step `groupEntry` produces — repeated records therefore contribute
one identifier — and a record with no name field contributes nothing. -/
theorem groups_from_canvas_groups_spec
    (self_groups : List (List (String × Json))) (res : List String)
    (h : groups_from_canvas_groups self_groups = Except.ok res) :
    res.Nodup ∧
    (∀ s, s ∈ res ↔ ∃ g, g ∈ self_groups ∧ groupEntry g = Except.ok (some s)) ∧
    (∀ g : List (String × Json), getField g "name" = none →
      groupEntry g = Except.ok none) := by
  have spec := gfcgAux_spec self_groups [] res h
  refine ⟨spec.1 List.nodup_nil, fun s => ?_, fun g hg => ?_⟩
  · rw [spec.2 s]
    simp
  · simp only [groupEntry, hg]

/-- C3 witness: duplicate `(context_type, context_id, name)` records
contribute a single, duplicate-free identifier. -/
theorem groups_from_canvas_groups_spec_witness :
    (["course::101::group::g1"] : List String).Nodup :=
  (groups_from_canvas_groups_spec
    [[("name", Json.str "g1"), ("context_type", Json.str "Course"),
      ("course_id", Json.num 101)],
     [("name", Json.str "g1"), ("context_type", Json.str "Course"),
      ("course_id", Json.num 101)]]
    ["course::101::group::g1"] rfl).1

/-- C10: a group record that has a name but no context-type tag makes
`groups_from_canvas_groups` fail (the `None.lower()` `AttributeError`)
instead of skipping the record or returning a result. -/
theorem groups_from_canvas_groups_missing_context_type :
    getField [("name", Json.str "g")] "context_type" = none ∧
    groups_from_canvas_groups [[("name", Json.str "g")]] =
      Except.error "AttributeError: lower" :=
  ⟨rfl, rfl⟩

/-- C4 counterexample: for the course with id 1 and one enrollment lacking a
"type" field, the emitted identifier ends in `None` (the Python `str()`
rendering of the `None` default), not in an empty final term as the claim
states. -/
theorem enrollment_missing_type_counterexample :
    groups_from_canvas_courses "id"
        [[("id", Json.num 1), ("enrollments", Json.arr [Json.obj []])]] =
      Except.ok ["course::1", "course::1::enrollment_type::None"] ∧
    ("course::1::enrollment_type::None" : String) ≠
      "course::1::enrollment_type::" :=
  ⟨rfl, by decide⟩

/-- C4 (amended): for every course with a non-null identifier whose
enrollment list contains an entry with no "type" field, the type lookup
defaults to the `None` placeholder, so the course's output contains the
identifier `course::{id}::enrollment_type::None` (final term the string
rendering of the placeholder, not an empty string). -/
theorem enrollment_missing_type_amended (key : String)
    (course : List (String × Json)) (course_id : Json) (es : List Json)
    (entry : List (String × Json)) (l : List String)
    (hid : getCourseId key course = some course_id)
    (hes : getEnrollments course = Except.ok es)
    (hmem : Json.obj entry ∈ es)
    (hty : getField entry "type" = none)
    (hok : course_groups_one key course = Except.ok l) :
    format_jupyterhub_group
      [Json.str "course", course_id, Json.str "enrollment_type", Json.null] ∈ l := by
  rw [course_groups_one, hid] at hok
  rcases hts : distinctEnrollmentTypes course with e | ts
  · rw [hts] at hok
    exact absurd hok (by simp [Bind.bind, Except.bind])
  · rw [hts] at hok
    simp only [Bind.bind, Except.bind, Except.ok.injEq] at hok
    rw [distinctEnrollmentTypes, hes] at hts
    simp only [Bind.bind, Except.bind] at hts
    rcases hls : mapME enrollmentTypeOf es with e | ls
    · rw [hls] at hts
      exact absurd hts (by simp)
    · rw [hls] at hts
      simp only [Except.ok.injEq] at hts
      have hnull : Json.null ∈ ls :=
        mapME_ok_mem hls hmem (by simp [enrollmentTypeOf, hty])
      have hints : Json.null ∈ ts := by
        rw [← hts]
        exact ((pySet_spec ls []).2 Json.null).mpr (Or.inr hnull)
      rw [← hok]
      exact List.mem_cons_of_mem _ (List.mem_map_of_mem _ hints)

/-- C4 witness: the amended theorem applied at the concrete course 1 with a
typeless enrollment entry. -/
theorem enrollment_missing_type_amended_witness :
    format_jupyterhub_group
      [Json.str "course", Json.num 1, Json.str "enrollment_type", Json.null] ∈
      ["course::1", "course::1::enrollment_type::None"] :=
  enrollment_missing_type_amended "id"
    [("id", Json.num 1), ("enrollments", Json.arr [Json.obj []])]
    (Json.num 1) [Json.obj []] [] ["course::1", "course::1::enrollment_type::None"]
    rfl rfl (by simp) rfl rfl

/-- C5: evidence for the key mismatch.  For an auth state built by
`build_auth_state_dict` from a token response and a user profile carrying all
four identity fields, the profile sits under `user_auth_state_key`
(`"canvas_user"`), there is no `"oauth_user"` key, and so the body of
`pre_spawn_start` produces only `OAUTH2_ACCESS_TOKEN` — none of the identity
environment variables. -/
theorem pre_spawn_start_env_mismatch :
    ((build_auth_state_dict [("access_token", Json.str "tok")]
        [("user", Json.obj [("login_id", Json.str "jane"), ("name", Json.str "Jane"),
          ("sortable_name", Json.str "Doe, Jane"),
          ("primary_email", Json.str "jane@example.org")])]).bind
      pre_spawn_env) = some [("OAUTH2_ACCESS_TOKEN", Json.str "tok")] ∧
    ((build_auth_state_dict [("access_token", Json.str "tok")]
        [("user", Json.obj [("login_id", Json.str "jane"), ("name", Json.str "Jane"),
          ("sortable_name", Json.str "Doe, Jane"),
          ("primary_email", Json.str "jane@example.org")])]).map
      (fun st => (getField st "oauth_user", getField st user_auth_state_key))) =
      some (none,
        some (Json.obj [("login_id", Json.str "jane"), ("name", Json.str "Jane"),
          ("sortable_name", Json.str "Doe, Jane"),
          ("primary_email", Json.str "jane@example.org")])) :=
  ⟨rfl, rfl⟩

/-- C8: in every auth state `build_auth_state_dict` returns, a string scope
in the token response appears split on single spaces, a sequence scope passes
through unchanged, and the whole token response (extra fields included) is
preserved verbatim under `token_response`. -/
theorem build_auth_state_dict_spec (token_info user_info st : List (String × Json))
    (h : build_auth_state_dict token_info user_info = some st) :
    (∀ s, getField token_info "scope" = some (Json.str s) →
      getField st "scope" = some (Json.arr ((pySplit ' ' s).map Json.str))) ∧
    (∀ xs, getField token_info "scope" = some (Json.arr xs) →
      getField st "scope" = some (Json.arr xs)) ∧
    getField st "token_response" = some (Json.obj token_info) := by
  rcases hacc : getField token_info "access_token" with _ | tok
  · rw [build_auth_state_dict, hacc] at h
    exact absurd h (by simp)
  · rw [build_auth_state_dict, hacc] at h
    injection h with h
    subst h
    refine ⟨fun s hs => ?_, fun xs hs => ?_, rfl⟩
    · have base : getField
          [("access_token", tok),
           ("refresh_token", (getField token_info "refresh_token").getD Json.null),
           ("id_token", (getField token_info "id_token").getD Json.null),
           ("scope", scopeNormalize ((getField token_info "scope").getD (Json.str ""))),
           ("token_response", Json.obj token_info),
           (user_auth_state_key, (getField user_info "user").getD (Json.obj [])),
           ("courses", (getField user_info "courses").getD (Json.arr [])),
           ("groups", (getField user_info "groups").getD (Json.arr []))] "scope" =
          some (scopeNormalize ((getField token_info "scope").getD (Json.str ""))) := rfl
      rw [base, hs]
      rfl
    · have base : getField
          [("access_token", tok),
           ("refresh_token", (getField token_info "refresh_token").getD Json.null),
           ("id_token", (getField token_info "id_token").getD Json.null),
           ("scope", scopeNormalize ((getField token_info "scope").getD (Json.str ""))),
           ("token_response", Json.obj token_info),
           (user_auth_state_key, (getField user_info "user").getD (Json.obj [])),
           ("courses", (getField user_info "courses").getD (Json.arr [])),
           ("groups", (getField user_info "groups").getD (Json.arr []))] "scope" =
          some (scopeNormalize ((getField token_info "scope").getD (Json.str ""))) := rfl
      rw [base, hs]
      rfl

/-- C8 witness: the scope/`token_response` theorem applied at a concrete
token response with an extra field. -/
theorem build_auth_state_dict_spec_witness :
    getField
      [("access_token", Json.str "tok"), ("refresh_token", Json.null),
       ("id_token", Json.null), ("scope", Json.arr [Json.str "a", Json.str "b"]),
       ("token_response", Json.obj [("access_token", Json.str "tok"),
         ("scope", Json.str "a b"), ("extra", Json.num 5)]),
       ("canvas_user", Json.obj []), ("courses", Json.arr []),
       ("groups", Json.arr [])] "scope" =
      some (Json.arr ((pySplit ' ' "a b").map Json.str)) :=
  (build_auth_state_dict_spec
    [("access_token", Json.str "tok"), ("scope", Json.str "a b"), ("extra", Json.num 5)]
    [] _ rfl).1 "a b" rfl

/-- C9: constructing the authenticator with `canvas_url` unset or lacking a
trailing slash raises at construction, and every successfully constructed
configuration has the `userdata_url` endpoint set, so the per-attempt check
in `token_to_user` can never fire — an unset user-info endpoint is precluded
at construction rather than failing an authentication attempt. -/
theorem canvas_init_spec :
    canvas_init "" = Except.error "c.CanvasOAuthenticator.canvas_url must be set" ∧
    (∀ u, u ≠ "" → u.data.getLast? ≠ some '/' →
      canvas_init u =
        Except.error "c.CanvasOAuthenticator.canvas_url must have a trailing slash") ∧
    (∀ u cfg, canvas_init u = Except.ok cfg →
      cfg.userdata_url = u ++ "api/v1/users/self/profile" ∧
      token_to_user_userdata_check cfg.userdata_url = Except.ok ()) := by
  refine ⟨rfl, fun u hu hlast => ?_, fun u cfg hok => ?_⟩
  · rw [canvas_init, if_neg hu, if_pos hlast]
  · rw [canvas_init] at hok
    by_cases hu : u = ""
    · rw [if_pos hu] at hok
      exact absurd hok (by simp)
    · rw [if_neg hu] at hok
      by_cases hlast : u.data.getLast? ≠ some '/'
      · rw [if_pos hlast] at hok
        exact absurd hok (by simp)
      · rw [if_neg hlast] at hok
        injection hok with hok
        subst hok
        refine ⟨rfl, ?_⟩
        rw [token_to_user_userdata_check, if_neg ?_]
        intro hempty
        have hdata := congrArg String.data hempty
        rw [String.data_append] at hdata
        have := (List.append_eq_nil.mp hdata).2
        exact absurd (congrArg List.length this) (by decide)

/-- C9 witness: the construction-validation theorem applied at a concrete
slash-less URL and a concrete valid URL. -/
theorem canvas_init_spec_witness :
    canvas_init "x" =
      Except.error "c.CanvasOAuthenticator.canvas_url must have a trailing slash" ∧
    token_to_user_userdata_check "https://canvas.test/api/v1/users/self/profile" =
      Except.ok () :=
  ⟨canvas_init_spec.2.1 "x" (by decide) (by decide),
   (canvas_init_spec.2.2 "https://canvas.test/" _ rfl).2⟩

/-- C6 counterexample: with suffix `berkeley.edu`, the username
`a@b@berkeley.edu` ends with `@berkeley.edu`, but `split("@")[0]` returns
`a`, not the `a@b` that merely stripping the `@{suffix}` part would give. -/
theorem normalize_username_counterexample :
    normalize_username "berkeley.edu" "a@b@berkeley.edu" = "a" ∧
    normalize_username "berkeley.edu" "a@b@berkeley.edu" ≠ "a@b" :=
  ⟨rfl, by decide⟩

/-- C6 (amended): `normalize_username` lower-cases the username; when a
non-empty suffix is configured and the lower-cased username ends with
`@{suffix}`, it returns the part before the *first* `@` — which coincides
with stripping `@{suffix}` exactly when no other `@` precedes it — and
otherwise returns the lower-cased username unchanged; the claim's two
examples hold. -/
theorem normalize_username_amended (d u p : String) :
    (¬ (d ≠ "" ∧ pyEndsWith (pyLower u) ("@" ++ d) = true) →
      normalize_username d u = pyLower u) ∧
    (d ≠ "" → pyEndsWith (pyLower u) ("@" ++ d) = true →
      normalize_username d u = prefixBeforeAt (pyLower u)) ∧
    (d ≠ "" → '@' ∉ p.data → pyLower u = p ++ "@" ++ d →
      normalize_username d u = p) ∧
    normalize_username "berkeley.edu" "Jane@Berkeley.EDU" = "jane" ∧
    normalize_username "" "Jane@Berkeley.EDU" = "jane@berkeley.edu" := by
  have hunfold : normalize_username d u =
      if d ≠ "" ∧ pyEndsWith (pyLower u) ("@" ++ d) = true then
        (pySplit '@' (pyLower u)).headD ""
      else pyLower u := rfl
  have hbranch : ∀ (h1 : d ≠ "") (h2 : pyEndsWith (pyLower u) ("@" ++ d) = true),
      normalize_username d u = prefixBeforeAt (pyLower u) := by
    intro h1 h2
    rw [hunfold, if_pos ⟨h1, h2⟩, pySplit_headD]
    rfl
  refine ⟨fun hneg => ?_, hbranch, fun h1 hp hlow => ?_, by decide, by decide⟩
  · rw [hunfold, if_neg hneg]
  · have hdata : (p ++ "@" ++ d).data = p.data ++ ('@' :: d.data) := by
      rw [String.data_append, String.data_append, List.append_assoc]
      rfl
    have h2 : pyEndsWith (pyLower u) ("@" ++ d) = true := by
      rw [hlow]
      show List.isSuffixOf ("@" ++ d).data (p ++ "@" ++ d).data = true
      have hsfx : (p ++ "@" ++ d).data = p.data ++ ("@" ++ d).data := by
        rw [hdata, String.data_append]
        rfl
      rw [hsfx]
      exact isSuffixOf_append p.data ("@" ++ d).data
    rw [hbranch h1 h2, hlow]
    show String.mk ((p ++ "@" ++ d).data.takeWhile (fun c => c != '@')) = p
    rw [hdata, takeWhile_append_sep '@' p.data d.data hp]

/-- C6 witness: the amended theorem's strip clause applied at the concrete
example of the claim. -/
theorem normalize_username_amended_witness :
    normalize_username "berkeley.edu" "Jane@Berkeley.EDU" = "jane" :=
  (normalize_username_amended "berkeley.edu" "Jane@Berkeley.EDU" "jane").2.2.1
    (by decide) (by decide) (by decide)

theorem process_page_body_eq (acc : List Json) (b : Json) :
    process_page_body acc b = acc ++ pageRecords b := by
  cases b <;> simp only [process_page_body, pageRecords] <;> split <;> simp

theorem fetch_chain_aux (server : String → Option (Json × String)) :
    ∀ (chain : List (String × Json × String)) (fuel : Nat) (acc : List Json)
      (url : Option String),
      chainOk server chain → chain.length ≤ fuel →
      chainHead chain url →
      fetch_all_pages_from server fuel url acc =
        some (acc ++ (chain.map (fun page => pageRecords page.2.1)).flatten)
  | [], fuel, acc, url => by
    intro _ _ hurl
    have hfalsy : urlTruthy url = false := hurl
    rcases url with _ | u
    · rcases fuel with _ | fuel <;> simp [fetch_all_pages_from]
    · have hu : u = "" := by simpa [urlTruthy] using hfalsy
      subst hu
      rcases fuel with _ | fuel <;> simp [fetch_all_pages_from]
  | (u, body, linkh) :: chain, fuel, acc, url => by
    intro hok hlen hurl
    have hurl' : url = some u := hurl
    subst hurl'
    obtain ⟨hu, hserver, hnext, hrest⟩ := hok
    rcases fuel with _ | fuel
    · simp at hlen
    · have hstep : fetch_all_pages_from server (fuel + 1) (some u) acc =
          fetch_all_pages_from server fuel (parse_next_url linkh)
            (process_page_body acc body) := by
        simp only [fetch_all_pages_from]
        rw [if_neg hu, hserver]
      have hlen' : chain.length ≤ fuel := by
        simp only [List.length_cons] at hlen
        omega
      rw [hstep, fetch_chain_aux server chain fuel (process_page_body acc body)
        (parse_next_url linkh) hrest hlen' hnext, process_page_body_eq]
      simp [List.append_assoc]

/-- C7 (amended): for every finite chain of pages in which each page except
the last declares a next link, `fetch_all_pages` returns the in-order
concatenation of all pages' records, where a list body extends the result,
any other *truthy* body is appended as one record, and a falsy body — null,
false, zero, the empty string, or the *empty object* — contributes nothing;
pagination ends at the first page without a next link. -/
theorem fetch_all_pages_spec (server : String → Option (Json × String))
    (u : String) (body : Json) (link_header : String)
    (rest : List (String × Json × String)) (fuel : Nat)
    (h : chainOk server ((u, body, link_header) :: rest))
    (hfuel : rest.length + 1 ≤ fuel) :
    fetch_all_pages server fuel u =
      some ((((u, body, link_header) :: rest).map
        (fun page => pageRecords page.2.1)).flatten) := by
  have := fetch_chain_aux server ((u, body, link_header) :: rest) fuel []
    (some u) h (by simpa using hfuel) rfl
  simpa [fetch_all_pages] using this

/-- C7 witness: the pagination theorem applied to a concrete three-page
chain, flattening the three pages' records in order. -/
theorem fetch_all_pages_spec_witness :
    fetch_all_pages pagedServer 3 "https://x/p1" =
      some [Json.num 1, Json.num 2, Json.num 3, Json.obj [("a", Json.num 4)]] :=
  fetch_all_pages_spec pagedServer "https://x/p1" (Json.arr [Json.num 1])
    "<https://x/p2>; rel=\"next\""
    [("https://x/p2", Json.arr [Json.num 2, Json.num 3], "<https://x/p3>; rel=\"next\""),
     ("https://x/p3", Json.obj [("a", Json.num 4)], "")] 3
    ⟨by decide, rfl, rfl, by decide, rfl, rfl, by decide, rfl, rfl, trivial⟩
    (by decide)

/-- C7 counterexample: a single page whose body is the empty JSON object —
a "single-object body" in the claim's terms — contributes nothing (the
`elif resp_data:` truthiness test fails), so the result is `[]`, not a
one-record list as the claim requires. -/
theorem fetch_all_pages_empty_object_counterexample :
    fetch_all_pages emptyObjServer 1 "https://x/only" = some [] ∧
    fetch_all_pages emptyObjServer 1 "https://x/only" ≠ some [Json.obj []] :=
  ⟨rfl, by decide⟩
